import Mathlib

/-
Verification of the syncronus OAuth2 token lifecycle and resilient
paginated-fetch logic, as a shallow embedding of
src/syncronus/sources/oauth2.py and src/syncronus/sources/tidal/client.py.

Opaque tokens, URLs and codes are modelled as Lean String values; timestamps
and the float arithmetic on delays are modelled over Rat (Python floats carry
no overflow concerns in these code paths); songs produced by _song_from_api
are abstracted to Nat identifiers since their internal structure never
influences the control flow being verified.
-/

namespace Syncronus

/-- Python truthiness of an optional string field (None and the empty string
are falsy); used wherever the source tests a token or verifier with
a bare `if self.x:`. -/
def strTruthy : Option String → Bool
  | none => false
  | some s => s != ""

/-- In-memory token state of OAuth2Client: access_token, refresh_token
(both Optional[str], initialised to None) and expires_at (float,
initialised to 0.0). -/
structure OAuthState where
  accessToken : Option String
  refreshToken : Option String
  expiresAt : Rat
deriving Repr, DecidableEq

/-- A successful token-endpoint JSON response as consumed by
OAuth2Client._update_tokens: access_token, expires_in, and an optional
refresh_token (none models an absent key; some "" models a present but
empty value). -/
structure TokenPayload where
  accessToken : String
  expiresIn : Rat
  refreshToken : Option String
deriving Repr, DecidableEq

/-- Embedding of OAuth2Client._update_tokens: the access token and expiry
are overwritten (with the 60-second safety margin), while refresh_token is
replaced only when the payload has a truthy refresh_token
(`if "refresh_token" in payload and payload["refresh_token"]`). -/
def updateTokens (now : Rat) (s : OAuthState) (p : TokenPayload) : OAuthState :=
  { accessToken := some p.accessToken
    expiresAt := now + p.expiresIn - 60
    refreshToken := if strTruthy p.refreshToken then p.refreshToken else s.refreshToken }

/-- Observable action taken by OAuth2Client.ensure_valid_token: return
without network traffic, raise OAuth2Error, or call _refresh_access_token. -/
inductive EnsureAction where
  | noop
  | authError
  | refresh
deriving Repr, DecidableEq

/-- Embedding of OAuth2Client.ensure_valid_token: refresh is considered
exactly when `not self.access_token or time.time() >= self.expires_at`;
inside that branch a missing refresh token raises OAuth2Error, otherwise
_refresh_access_token is called. -/
def ensureValidToken (now : Rat) (s : OAuthState) : EnsureAction :=
  if strTruthy s.accessToken = false ∨ s.expiresAt ≤ now then
    if strTruthy s.refreshToken = false then EnsureAction.authError
    else EnsureAction.refresh
  else EnsureAction.noop

/-- Keys of a form-encoded request body, in insertion order (Python dicts
preserve insertion order, and requests posts the dict as given). -/
def bodyKeys (body : List (String × String)) : List String :=
  body.map Prod.fst

/-- Embedding of the body built by OAuth2Client.exchange_code before the
POST. memVerifier is self.code_verifier held in memory; cacheVerifier is
the value a _load_verifier call would produce from the cache file (none
when the file is absent, unreadable, or has no "verifier" key). The
source adds client_secret under `if not self.use_pkce or
self._requires_client_secret_for_exchange()`, then, when PKCE is on and
the in-memory verifier is falsy, reloads it from the cache and appends
code_verifier only if the resulting value is truthy. -/
def exchangeCodeBody (usePkce requiresSecret : Bool)
    (clientId clientSecret redirectUri code : String)
    (memVerifier cacheVerifier : Option String) : List (String × String) :=
  let base := [("grant_type", "authorization_code"), ("code", code),
               ("redirect_uri", redirectUri), ("client_id", clientId)]
  let withSecret :=
    if !usePkce || requiresSecret then base ++ [("client_secret", clientSecret)]
    else base
  if usePkce then
    let effVerifier := if strTruthy memVerifier then memVerifier else cacheVerifier
    if strTruthy effVerifier then withSecret ++ [("code_verifier", effVerifier.getD "")]
    else withSecret
  else withSecret

/-- Embedding of the body built by OAuth2Client._refresh_access_token:
grant_type, refresh_token and client_id always; client_secret appended
only when _requires_client_secret_for_refresh() returns true. -/
def refreshBody (requiresSecret : Bool)
    (clientId clientSecret refreshTok : String) : List (String × String) :=
  let base := [("grant_type", "refresh_token"), ("refresh_token", refreshTok),
               ("client_id", clientId)]
  if requiresSecret then base ++ [("client_secret", clientSecret)] else base

/-- TidalOAuth2Client._requires_client_secret_for_refresh returns False. -/
def tidalRequiresClientSecretForRefresh : Bool := false

/-- TidalOAuth2Client._requires_client_secret_for_exchange returns False. -/
def tidalRequiresClientSecretForExchange : Bool := false

/-- TidalClient constructs its OAuth2 client with use_pkce=True. -/
def tidalUsePkce : Bool := true

/-- SpotifyOAuth2Client._requires_client_secret_for_exchange returns True. -/
def spotifyRequiresClientSecretForExchange : Bool := true

/-- SpotifyClient constructs its OAuth2 client with use_pkce=False. -/
def spotifyUsePkce : Bool := false

/-- JSON content of the token cache file, one optional entry per key the
code ever writes or reads: access_token, refresh_token, expires_at,
verifier, and the Tidal extension keys user_id and user_country. A none
field models an absent key (json.dumps of Python None and a missing key
are both read back as None by dict.get). -/
structure CacheFile where
  accessToken : Option String
  refreshToken : Option String
  expiresAt : Option Rat
  verifier : Option String
  userId : Option String
  userCountry : Option String
deriving Repr, DecidableEq

/-- Embedding of OAuth2Client._save_cached_tokens: the file is rewritten
with exactly the three token keys. -/
def saveCachedTokens (s : OAuthState) : CacheFile :=
  { accessToken := s.accessToken
    refreshToken := s.refreshToken
    expiresAt := some s.expiresAt
    verifier := none
    userId := none
    userCountry := none }

/-- Embedding of OAuth2Client._load_cached_tokens: data.get("access_token"),
data.get("refresh_token"), data.get("expires_at", 0.0). -/
def loadCachedTokens (f : CacheFile) : OAuthState :=
  { accessToken := f.accessToken
    refreshToken := f.refreshToken
    expiresAt := f.expiresAt.getD 0 }

/-- In-memory state of TidalOAuth2Client: the base token state plus
code_verifier, user_id and user_country. -/
structure TidalOAuthState where
  accessToken : Option String
  refreshToken : Option String
  expiresAt : Rat
  codeVerifier : Option String
  userId : Option String
  userCountry : Option String
deriving Repr, DecidableEq

/-- Embedding of TidalOAuth2Client._save_cached_tokens (the override): the
file is rewritten with the three token keys plus user_id and user_country,
and the verifier key is preserved exactly when self.code_verifier is
truthy. -/
def tidalSaveCachedTokens (s : TidalOAuthState) : CacheFile :=
  { accessToken := s.accessToken
    refreshToken := s.refreshToken
    expiresAt := some s.expiresAt
    verifier := if strTruthy s.codeVerifier then s.codeVerifier else none
    userId := s.userId
    userCountry := s.userCountry }

/-- Embedding of reading Tidal client state back from the cache file:
_load_cached_tokens for the three token keys, _load_user_info for
user_id/user_country, and _load_verifier for the verifier key. -/
def tidalLoadState (f : CacheFile) : TidalOAuthState :=
  { accessToken := f.accessToken
    refreshToken := f.refreshToken
    expiresAt := f.expiresAt.getD 0
    codeVerifier := f.verifier
    userId := f.userId
    userCountry := f.userCountry }

/-- Observed state of one response header as the source inspects it:
absent (headers.get returns None), invalid (present but empty — falsy — or
failing float()/int() conversion; both paths only log and fall through),
or num (present and successfully converted). -/
inductive HdrVal (α : Type) where
  | absent
  | invalid (raw : String)
  | num (value : α)
deriving Repr, DecidableEq

/-- Embedding of TidalClient._calculate_retry_delay. retryAfter is the
Retry-After header read as float; reset is the X-RateLimit-Reset header
read as int; now is int(time.time()); jitter is the value drawn by
random.uniform(0.75, 1.25), passed in explicitly since the draw is the
only nondeterminism in the function. -/
def calculateRetryDelay (retryAfter : HdrVal Rat) (reset : HdrVal Int)
    (retryCount : Nat) (baseDelay : Rat) (now : Int) (jitter : Rat) : Rat :=
  match retryAfter with
  | HdrVal.num secs => secs
  | _ =>
    let fallback := min (baseDelay * 2 ^ (retryCount - 1)) 60 * jitter
    match reset with
    | HdrVal.num resetTime =>
        let waitTime : Int := max 0 (resetTime - now)
        if 0 < waitTime then (waitTime : Rat) else fallback
    | _ => fallback

/-- One element of a page's "data" array as _get_tracks_from_url consumes
it: its "type" string, and the outcome of _song_from_api on its id —
some song when the conversion succeeds, none when it raises (the item is
then logged and skipped). Songs are abstracted to Nat identifiers. -/
structure PageItem where
  typ : String
  song : Option Nat
deriving Repr, DecidableEq, Inhabited

/-- A parsed successful page response: its "data" array and the
links.next cursor (none when absent). -/
structure PageResp where
  data : List PageItem
  next : Option String
deriving Repr, DecidableEq, Inhabited

/-- Songs appended from one page: the source iterates data, keeps items
whose type is "tracks", and appends each successful _song_from_api
result, skipping failures. -/
def pageTracks (resp : PageResp) : List Nat :=
  resp.data.filterMap fun item => if item.typ = "tracks" then item.song else none

/-- Outcome of TidalClient._get_tracks_from_url. ok is a normal return of
the accumulated list; emptyPlaylist is the TidalEmptyPlaylistError raised
(and re-raised by the outer handler) for an empty first page;
tooManyFailures is the RuntimeError raised in the page-fetch except
branch (the outer handler rewraps it, still a RuntimeError). outOfModel
marks exhaustion of the finite upstream model while the loop would issue
another request; no theorem relies on it. -/
inductive FetchResult where
  | ok (tracks : List Nat)
  | emptyPlaylist
  | tooManyFailures
  | outOfModel
deriving Repr, DecidableEq

/-- Embedding of the while-loop of TidalClient._get_tracks_from_url. Each
element of attempts is the outcome of one `self._get(url=current_url)`
call: some resp on success, none when it raises requests.RequestException.
pageCount counts pages already processed, so the source's page_count
(incremented at the top of each iteration) reads pageCount + 1 here; the
empty-first-page test `page_count == 1 and not data` is pageCount = 0.
The hard cap `len(tracks) >= max_tracks` is tested before each fetch and
breaks out returning the accumulated tracks; a fetch failure increments
consecutive_failures and then unconditionally raises (the declared
max_consecutive_failures = 3 is never compared); maxPages only gates log
messages in the source and does not alter the result. -/
def fetchLoop (maxPages maxTracks : Nat) (tracks : List Nat) (pageCount : Nat) :
    List (Option PageResp) → FetchResult
  | [] =>
      if maxTracks ≤ tracks.length then FetchResult.ok tracks
      else FetchResult.outOfModel
  | none :: _ =>
      if maxTracks ≤ tracks.length then FetchResult.ok tracks
      else FetchResult.tooManyFailures
  | some resp :: rest =>
      if maxTracks ≤ tracks.length then FetchResult.ok tracks
      else if pageCount = 0 ∧ resp.data = [] then FetchResult.emptyPlaylist
      else
        match resp.next with
        | some _ => fetchLoop maxPages maxTracks (tracks ++ pageTracks resp)
                      (pageCount + 1) rest
        | none => FetchResult.ok (tracks ++ pageTracks resp)

/-- Embedding of TidalClient._get_tracks_from_url: the loop started on the
given upstream with empty accumulator; in the source max_pages defaults
to 1000 and max_tracks to 50000. -/
def getTracksFromUrl (maxPages maxTracks : Nat)
    (attempts : List (Option PageResp)) : FetchResult :=
  fetchLoop maxPages maxTracks [] 0 attempts

/-- Shape of a well-linked upstream: every page response carries a next
cursor except the last, which has none. -/
def isPageChain : List PageResp → Bool
  | [] => false
  | [r] => r.next.isNone
  | r :: r2 :: rest => r.next.isSome && isPageChain (r2 :: rest)

/-- C3 counterexample: with PKCE disabled and a descriptor that does not
require the client secret for exchange (requiresSecret = false, the base
class default), exchange_code still puts a client_secret key in the body,
because the source condition is `not self.use_pkce or
self._requires_client_secret_for_exchange()`. This refutes the claim that
the key appears only if the descriptor requires it, regardless of PKCE. -/
theorem exchange_body_secret_counterexample :
    "client_secret" ∈ bodyKeys
      (exchangeCodeBody false false "cid" "sec" "uri" "code" none none) := by
  decide

/-- C3 amended: the form body posted by exchange_code contains a
client_secret key exactly when PKCE is disabled or the descriptor requires
the secret for exchange; in particular, with PKCE enabled the key is
present only if _requires_client_secret_for_exchange() is true. -/
theorem exchange_body_secret_condition (usePkce requiresSecret : Bool)
    (clientId clientSecret redirectUri code : String)
    (memVerifier cacheVerifier : Option String) :
    "client_secret" ∈ bodyKeys
        (exchangeCodeBody usePkce requiresSecret clientId clientSecret
          redirectUri code memVerifier cacheVerifier)
      ↔ (usePkce = false ∨ requiresSecret = true) := by
  cases usePkce <;> cases requiresSecret <;>
    by_cases hm : strTruthy memVerifier = true <;>
    by_cases hc : strTruthy cacheVerifier = true <;>
    simp [exchangeCodeBody, bodyKeys, hm, hc]

/-- C10: when exchange_code runs with PKCE enabled, no verifier in memory
and no verifier key recoverable from the cache file, no error is raised
before the POST (the embedded body construction is total on this path, as
the source has no raise between entry and requests.post): the request body
is still built, merely without a code_verifier key, and it still carries
the mandatory authorization-code fields. -/
theorem exchange_code_missing_verifier_omits_field
    (requiresSecret : Bool) (clientId clientSecret redirectUri code : String) :
    "code_verifier" ∉ bodyKeys
        (exchangeCodeBody true requiresSecret clientId clientSecret
          redirectUri code none none) ∧
    "grant_type" ∈ bodyKeys
        (exchangeCodeBody true requiresSecret clientId clientSecret
          redirectUri code none none) ∧
    "code" ∈ bodyKeys
        (exchangeCodeBody true requiresSecret clientId clientSecret
          redirectUri code none none) := by
  cases requiresSecret <;> simp [exchangeCodeBody, bodyKeys, strTruthy]

/-- C8: for a provider whose descriptor does not require the client secret
on refresh — Tidal's _requires_client_secret_for_refresh returns False —
the body built by _refresh_access_token has no client_secret key at all. -/
theorem refresh_body_omits_client_secret
    (clientId clientSecret refreshTok : String) :
    "client_secret" ∉ bodyKeys
        (refreshBody tidalRequiresClientSecretForRefresh
          clientId clientSecret refreshTok) ∧
    "client_secret" ∉ bodyKeys
        (refreshBody false clientId clientSecret refreshTok) := by
  simp [refreshBody, bodyKeys, tidalRequiresClientSecretForRefresh]

/-- C6: after _update_tokens commits a refresh response, the in-memory
access token is the new value, and the refresh token is replaced only by a
truthy refresh_token in the payload — an absent (none) or empty (some "")
refresh_token leaves the previous one untouched; the record then persisted
by _save_cached_tokens carries exactly those same values. -/
theorem update_tokens_retains_refresh_token
    (now : Rat) (s : OAuthState) (p : TokenPayload) :
    (updateTokens now s p).accessToken = some p.accessToken ∧
    (updateTokens now s p).refreshToken =
      (if strTruthy p.refreshToken then p.refreshToken else s.refreshToken) ∧
    (saveCachedTokens (updateTokens now s p)).accessToken = some p.accessToken ∧
    (saveCachedTokens (updateTokens now s p)).refreshToken =
      (if strTruthy p.refreshToken then p.refreshToken else s.refreshToken) :=
  ⟨rfl, rfl, rfl, rfl⟩

/-- C7: ensure_valid_token attempts a refresh exactly when the access token
is missing/empty or now has reached expires_at and a refresh token exists;
under the same expiry condition without a refresh token it raises
OAuth2Error instead; and at the exact boundary now = expires_at it never
treats the token as valid. -/
theorem ensure_valid_token_conditions (now : Rat) (s : OAuthState) :
    (ensureValidToken now s = EnsureAction.refresh ↔
      ((strTruthy s.accessToken = false ∨ s.expiresAt ≤ now) ∧
        strTruthy s.refreshToken = true)) ∧
    (ensureValidToken now s = EnsureAction.authError ↔
      ((strTruthy s.accessToken = false ∨ s.expiresAt ≤ now) ∧
        strTruthy s.refreshToken = false)) ∧
    ensureValidToken s.expiresAt s ≠ EnsureAction.noop := by
  refine ⟨?_, ?_, ?_⟩
  · unfold ensureValidToken
    split
    · split
      · rename_i hc hr
        simp [hc, hr]
      · rename_i hc hr
        simp at hr
        simp [hc, hr]
    · rename_i hc
      simp [hc]
  · unfold ensureValidToken
    split
    · split
      · rename_i hc hr
        simp [hc, hr]
      · rename_i hc hr
        simp [hc, hr]
    · rename_i hc
      simp [hc]
  · unfold ensureValidToken
    rw [if_pos (Or.inr le_rfl)]
    split <;> simp

/-- C4: writing the Tidal client state with _save_cached_tokens and reading
it back (_load_cached_tokens, _load_user_info, _load_verifier) reproduces
every field exactly — access_token, refresh_token, expires_at, user_id and
user_country always, and the PKCE verifier whenever it is populated (a
falsy verifier is simply not written); likewise the base OAuth2Client
save/load round-trips its whole token record. -/
theorem token_cache_round_trip (s : TidalOAuthState) (b : OAuthState) :
    tidalLoadState (tidalSaveCachedTokens s) =
      { s with codeVerifier :=
          if strTruthy s.codeVerifier then s.codeVerifier else none } ∧
    loadCachedTokens (saveCachedTokens b) = b :=
  ⟨rfl, rfl⟩

/-- C5 counterexample: with no Retry-After header and an X-RateLimit-Reset
equal to the current time (reset 100, now 100, attempt 1, base delay 1,
jitter 1), the claim prescribes a wait of reset - now floored at 0, which
is 0; the code instead falls through to exponential backoff and waits 1,
because it only returns the reset-based wait when it is strictly
positive. -/
theorem calculate_retry_delay_counterexample :
    calculateRetryDelay HdrVal.absent (HdrVal.num 100) 1 1 100 1 = 1 ∧
    ((max 0 ((100 : Int) - 100) : Int) : Rat) = 0 ∧ (1 : Rat) ≠ 0 := by
  refine ⟨?_, by norm_num, by norm_num⟩
  simp [calculateRetryDelay]

/-- C5 amended: the wait for a 429 is computed in priority order — (a) a
numeric Retry-After header is returned literally as seconds; (b) failing
that, a numeric X-RateLimit-Reset yields reset - now, but only when that
difference is strictly positive; (c) when Retry-After is unusable and the
reset time is absent, unusable, or not in the future, the wait is
base_delay * 2^(attempt-1) capped at 60 and multiplied by the jitter
factor drawn from [0.75, 1.25]. -/
theorem calculate_retry_delay_priority
    (reset : HdrVal Int) (retryCount : Nat) (baseDelay : Rat)
    (now : Int) (jitter : Rat) :
    (∀ q : Rat,
      calculateRetryDelay (HdrVal.num q) reset retryCount baseDelay now jitter = q) ∧
    (∀ retryAfter : HdrVal Rat, (∀ q, retryAfter ≠ HdrVal.num q) →
      ∀ r : Int, now < r →
        calculateRetryDelay retryAfter (HdrVal.num r) retryCount baseDelay now jitter =
          ((r - now : Int) : Rat)) ∧
    (∀ retryAfter : HdrVal Rat, (∀ q, retryAfter ≠ HdrVal.num q) →
      ∀ r : Int, r ≤ now →
        calculateRetryDelay retryAfter (HdrVal.num r) retryCount baseDelay now jitter =
          min (baseDelay * 2 ^ (retryCount - 1)) 60 * jitter) ∧
    (∀ retryAfter : HdrVal Rat, (∀ q, retryAfter ≠ HdrVal.num q) →
      ∀ rs : HdrVal Int, (∀ r, rs ≠ HdrVal.num r) →
        calculateRetryDelay retryAfter rs retryCount baseDelay now jitter =
          min (baseDelay * 2 ^ (retryCount - 1)) 60 * jitter) := by
  refine ⟨fun q => rfl, ?_, ?_, ?_⟩
  · intro retryAfter hra r hr
    have hwait : (0 : Int) < max 0 (r - now) := by omega
    cases retryAfter with
    | absent => simp [calculateRetryDelay, hwait]; omega
    | invalid raw => simp [calculateRetryDelay, hwait]; omega
    | num q => exact absurd rfl (hra q)
  · intro retryAfter hra r hr
    have hwait : ¬ (0 : Int) < max 0 (r - now) := by omega
    cases retryAfter with
    | absent => simp [calculateRetryDelay, hwait]
    | invalid raw => simp [calculateRetryDelay, hwait]
    | num q => exact absurd rfl (hra q)
  · intro retryAfter hra rs hrs
    cases retryAfter with
    | num q => exact absurd rfl (hra q)
    | absent =>
        cases rs with
        | num r => exact absurd rfl (hrs r)
        | absent => rfl
        | invalid raw => rfl
    | invalid raw =>
        cases rs with
        | num r => exact absurd rfl (hrs r)
        | absent => rfl
        | invalid raw2 => rfl

/-- C5 witness: the amended priority order evaluated at concrete headers —
Retry-After 7 wins outright; an absent Retry-After with reset 130 at now
100 waits 30; the same with reset 100 (not in the future) or with no reset
header falls back to the jittered backoff min(1 * 2^0, 60) * 1 = 1. -/
theorem calculate_retry_delay_priority_witness :
    calculateRetryDelay (HdrVal.num 7) (HdrVal.num 130) 1 1 100 1 = 7 ∧
    calculateRetryDelay HdrVal.absent (HdrVal.num 130) 1 1 100 1 = 30 ∧
    calculateRetryDelay HdrVal.absent (HdrVal.num 100) 1 1 100 1 =
      min ((1 : Rat) * 2 ^ (1 - 1)) 60 * 1 ∧
    calculateRetryDelay HdrVal.absent HdrVal.absent 1 1 100 1 =
      min ((1 : Rat) * 2 ^ (1 - 1)) 60 * 1 := by
  have h := calculate_retry_delay_priority (HdrVal.num 130) 1 1 100 1
  have h2 := calculate_retry_delay_priority (HdrVal.num 100) 1 1 100 1
  have h3 := calculate_retry_delay_priority HdrVal.absent 1 1 100 1
  refine ⟨h.1 7, ?_, ?_, ?_⟩
  · have := h.2.1 HdrVal.absent (by intro q h; cases h) 130 (by norm_num)
    rw [this]; norm_num
  · exact h2.2.2.1 HdrVal.absent (by intro q h; cases h) 100 (by norm_num)
  · exact h3.2.2.2 HdrVal.absent (by intro q h; cases h) HdrVal.absent
      (by intro r h; cases h)

/-- Helper: any normal return of the pagination loop is bounded by
max_tracks - 1 + k when every successful page yields at most k tracks and
the accumulator starts within that bound: the cap is checked before each
fetch, so the accumulator is below max_tracks whenever a page is appended. -/
theorem fetchLoop_ok_bound (maxPages maxTracks k : Nat) :
    ∀ (attempts : List (Option PageResp)) (tracks : List Nat) (pageCount : Nat),
      (∀ resp : PageResp, some resp ∈ attempts → (pageTracks resp).length ≤ k) →
      tracks.length ≤ maxTracks - 1 + k →
      ∀ ts, fetchLoop maxPages maxTracks tracks pageCount attempts = FetchResult.ok ts →
        ts.length ≤ maxTracks - 1 + k := by
  intro attempts
  induction attempts with
  | nil =>
      intro tracks pageCount hk hb ts h
      simp only [fetchLoop] at h
      split at h
      · rw [FetchResult.ok.injEq] at h
        exact h ▸ hb
      · simp at h
  | cons head rest ih =>
      intro tracks pageCount hk hb ts h
      cases head with
      | none =>
          simp only [fetchLoop] at h
          split at h
          · rw [FetchResult.ok.injEq] at h
            exact h ▸ hb
          · simp at h
      | some resp =>
          simp only [fetchLoop] at h
          split at h
          · rw [FetchResult.ok.injEq] at h
            exact h ▸ hb
          · rename_i hcap
            split at h
            · simp at h
            · have hpk : (pageTracks resp).length ≤ k :=
                hk resp (List.mem_cons_self _ _)
              have htr : (tracks ++ pageTracks resp).length ≤ maxTracks - 1 + k := by
                rw [List.length_append]
                omega
              cases hnext : resp.next with
              | some u =>
                  rw [hnext] at h
                  exact ih _ _ (fun r hr => hk r (List.mem_cons_of_mem _ hr)) htr ts h
              | none =>
                  rw [hnext] at h
                  dsimp only at h
                  rw [FetchResult.ok.injEq] at h
                  exact h ▸ htr

/-- C1 counterexample: with max_tracks = 1, a single page holding two
track items yields two accumulated songs — the hard cap is only checked
before fetching a page, never while appending within a page, so
items_accumulated exceeds the configured cap. -/
theorem get_tracks_cap_counterexample :
    getTracksFromUrl 1000 1
        [some { data := [{ typ := "tracks", song := some 1 },
                         { typ := "tracks", song := some 2 }], next := none }] =
      FetchResult.ok [1, 2] ∧ 1 < ([1, 2] : List Nat).length := by
  exact ⟨rfl, by norm_num⟩

/-- C1 amended: the hard cap is checked only before each page fetch, so a
normal return can overshoot max_tracks by at most one page: when every
fetched page yields at most k items the result holds at most
max_tracks - 1 + k items; and once the accumulator has reached max_tracks
the loop stops at the next check, returning the accumulated items without
error regardless of remaining pages or pending failures. -/
theorem get_tracks_cap_amended (maxPages maxTracks : Nat) :
    (∀ (k : Nat) (attempts : List (Option PageResp)),
      (∀ resp : PageResp, some resp ∈ attempts → (pageTracks resp).length ≤ k) →
      ∀ ts, getTracksFromUrl maxPages maxTracks attempts = FetchResult.ok ts →
        ts.length ≤ maxTracks - 1 + k) ∧
    (∀ (tracks : List Nat) (pageCount : Nat) (attempts : List (Option PageResp)),
      maxTracks ≤ tracks.length →
      fetchLoop maxPages maxTracks tracks pageCount attempts =
        FetchResult.ok tracks) := by
  constructor
  · intro k attempts hk ts h
    exact fetchLoop_ok_bound maxPages maxTracks k attempts [] 0 hk (by simp) ts h
  · intro tracks pageCount attempts hcap
    cases attempts with
    | nil => simp [fetchLoop, hcap]
    | cons head rest =>
        cases head with
        | none => simp [fetchLoop, hcap]
        | some resp => simp [fetchLoop, hcap]

/-- C1 witness: the overshoot bound applied to the two-track page at
max_tracks = 1 (2 ≤ 1 - 1 + 2), and the immediate stop applied to an
accumulator already at the cap with a failure still pending upstream. -/
theorem get_tracks_cap_amended_witness :
    ([1, 2] : List Nat).length ≤ 1 - 1 + 2 ∧
    fetchLoop 1000 1 [9] 0 [none] = FetchResult.ok [9] := by
  constructor
  · exact (get_tracks_cap_amended 1000 1).1 2
      [some { data := [{ typ := "tracks", song := some 1 },
                       { typ := "tracks", song := some 2 }], next := none }]
      (by
        intro resp hr
        rw [List.mem_singleton] at hr
        injection hr with hr
        subst hr
        decide)
      [1, 2] rfl
  · exact (get_tracks_cap_amended 1000 1).2 [9] 0 [none] (by norm_num)

/-- C2: a single page-fetch failure aborts the whole fetch. The source
declares max_consecutive_failures = 3 and logs the failure count against
it, but the except branch raises unconditionally, so the counter can
never reach the threshold: an upstream failing once and then healthy
still ends in the abort error. -/
theorem single_failure_aborts_fetch :
    getTracksFromUrl 1000 50000
        [none, some { data := [{ typ := "tracks", song := some 1 }], next := none }] =
      FetchResult.tooManyFailures := rfl

/-- Helper: one loop iteration on a successful page below the cap and past
the empty-first-page test appends the page's tracks and either recurses on
a present next cursor or returns. -/
theorem fetchLoop_cons_some (maxPages maxTracks : Nat) (tracks : List Nat)
    (pageCount : Nat) (resp : PageResp) (rest : List (Option PageResp))
    (hcap : tracks.length < maxTracks)
    (hne : ¬(pageCount = 0 ∧ resp.data = [])) :
    fetchLoop maxPages maxTracks tracks pageCount (some resp :: rest) =
      match resp.next with
      | some _ => fetchLoop maxPages maxTracks (tracks ++ pageTracks resp)
                    (pageCount + 1) rest
      | none => FetchResult.ok (tracks ++ pageTracks resp) := by
  simp only [fetchLoop]
  rw [if_neg (by omega), if_neg hne]

/-- Helper: running the loop over a well-linked chain of successful pages
whose total track yield stays under the cap appends every page's tracks
and returns normally at the cursor-free last page. -/
theorem fetchLoop_chain_ok (maxPages maxTracks : Nat) :
    ∀ (resps : List PageResp), isPageChain resps = true →
    ∀ (tracks : List Nat) (pageCount : Nat),
      (pageCount = 0 → resps.headI.data ≠ []) →
      tracks.length + ((resps.map pageTracks).flatten).length < maxTracks →
      fetchLoop maxPages maxTracks tracks pageCount (resps.map some) =
        FetchResult.ok (tracks ++ (resps.map pageTracks).flatten) := by
  intro resps
  induction resps with
  | nil => intro hchain; simp [isPageChain] at hchain
  | cons r rest ih =>
      intro hchain tracks pageCount hhead hbound
      have hne : ¬(pageCount = 0 ∧ r.data = []) := by
        rintro ⟨hpc, hdata⟩
        exact hhead hpc (by simpa using hdata)
      have hcap : tracks.length < maxTracks := by
        simp only [List.map_cons, List.flatten_cons, List.length_append] at hbound
        omega
      rw [List.map_cons, fetchLoop_cons_some maxPages maxTracks tracks pageCount
        r (rest.map some) hcap hne]
      cases rest with
      | nil =>
          have hnone : r.next = none := by
            simpa [isPageChain, Option.isNone_iff_eq_none] using hchain
          rw [hnone]
          simp
      | cons r2 rest2 =>
          have hchain2 : r.next.isSome = true ∧ isPageChain (r2 :: rest2) = true := by
            simpa [isPageChain, Bool.and_eq_true] using hchain
          obtain ⟨u, hu⟩ := Option.isSome_iff_exists.mp hchain2.1
          rw [hu]
          have hrec := ih hchain2.2 (tracks ++ pageTracks r) (pageCount + 1)
            (by omega)
            (by
              simp only [List.map_cons, List.flatten_cons, List.length_append]
                at hbound ⊢
              omega)
          rw [hrec]
          simp [List.append_assoc]

/-- C9: a first page with zero items makes the fetch raise
TidalEmptyPlaylistError (given a positive track cap, as in the default
50000) no matter what follows; whereas a well-linked chain of non-empty
successful pages whose last response has no next cursor terminates
normally with the concatenation of all pages' mapped tracks. -/
theorem empty_first_page_and_chain_termination (maxPages maxTracks : Nat) :
    (∀ (resp : PageResp) (rest : List (Option PageResp)),
      0 < maxTracks → resp.data = [] →
      getTracksFromUrl maxPages maxTracks (some resp :: rest) =
        FetchResult.emptyPlaylist) ∧
    (∀ resps : List PageResp, isPageChain resps = true →
      resps.headI.data ≠ [] →
      ((resps.map pageTracks).flatten).length < maxTracks →
      getTracksFromUrl maxPages maxTracks (resps.map some) =
        FetchResult.ok ((resps.map pageTracks).flatten)) := by
  constructor
  · intro resp rest hmax hdata
    simp only [getTracksFromUrl, fetchLoop]
    rw [if_neg (by simp only [List.length_nil]; omega)]
    rw [if_pos ⟨trivial, hdata⟩]
  · intro resps hchain hhead hbound
    have h := fetchLoop_chain_ok maxPages maxTracks resps hchain [] 0
      (fun _ => hhead) (by simpa using hbound)
    simpa [getTracksFromUrl] using h

/-- C9 witness: an empty first page (with a next cursor still present)
raises the empty-playlist error, while a two-page chain with one track
per page and no cursor on the second page returns both tracks in order. -/
theorem empty_first_page_and_chain_witness :
    getTracksFromUrl 1000 50000 [some { data := [], next := some "u" }] =
      FetchResult.emptyPlaylist ∧
    getTracksFromUrl 1000 50000
        ([{ data := [{ typ := "tracks", song := some 5 }], next := some "u2" },
          { data := [{ typ := "tracks", song := some 7 }], next := none }].map some) =
      FetchResult.ok [5, 7] := by
  constructor
  · exact (empty_first_page_and_chain_termination 1000 50000).1 _ _
      (by norm_num) rfl
  · have h := (empty_first_page_and_chain_termination 1000 50000).2
      [{ data := [{ typ := "tracks", song := some 5 }], next := some "u2" },
       { data := [{ typ := "tracks", song := some 7 }], next := none }]
      (by decide) (by decide) (by decide)
    rw [h]
    decide

end Syncronus
